import Mathlib

/-!
Verification of the GUARD fall-detection system against its specification.

The development shallowly embeds the pieces of the repository that the
claims concern:

* `services/database_service.py` — `DatabaseService`: durable (Firestore)
  and local (JSON-file) event storage, with `save_fall_event`,
  `get_fall_events`, `delete_fall_event`, `cleanup_old_events`.
* `models/fall_detector.py` — `FallDetector.detect_fall`,
  `FallDetector._process_results` and the detection cooldown.
* `services/camera_service.py` — `CameraService._handle_fall_detection`,
  which synthesises the `FallEvent` payload.
* `services/notification_service.py` — `NotificationService.send_fall_alert`
  and its per-user cooldown `_check_cooldown`.

Conventions: wall-clock readings (`time.time()`) are modelled as integers;
fallible external effects (file writes, Firestore calls, model inference)
are modelled by explicit outcome parameters (`Bool` success flags or
`Except`), matching the `try/except` structure of the Python source.
-/

namespace Guard

/-- A fall-event record (the Python dict passed to `save_fall_event`).
Keys that may be absent in the dict are `Option`-valued; `confidence`
uses `ℚ` for the Python float. -/
structure EventData where
  id : Option String
  user_id : Option String
  timestamp : Option Int
  created_at : Option Int
  confidence : ℚ
  status : String
  processed : Bool
deriving DecidableEq, Repr

/-- Effective sort and cleanup key used throughout `database_service.py`:
`e.get("timestamp", e.get("created_at", 0))`. -/
def evKey (e : EventData) : Int :=
  (e.timestamp.getD (e.created_at.getD 0))

/-- Field normalisation at the top of `DatabaseService.save_fall_event`
(lines 130-140): fills `id` (from `uuid.uuid4()`, passed in as `freshId`),
`user_id`, `timestamp` and `created_at` when absent. Present fields are
kept unchanged. -/
def normalizeEvent (freshId : String) (uid : String) (now : Int) (e : EventData) : EventData :=
  { e with
    id := some (e.id.getD freshId)
    user_id := some (e.user_id.getD uid)
    timestamp := some (e.timestamp.getD now)
    created_at := some (e.created_at.getD now) }

/-- One user record of the local `_memory_storage["users"]` dict: the two
event collections, each of which may be absent before the first save. -/
structure UserRecord where
  events : Option (List EventData)
  fall_events : Option (List EventData)
deriving DecidableEq, Repr

/-- The record `{"id": user_id}` created on first access: no collections. -/
def UserRecord.empty : UserRecord := ⟨none, none⟩

/-- The `users` map of `_memory_storage`, as an association list. -/
abbrev LocalDB := List (String × UserRecord)

def lookupUser : LocalDB → String → Option UserRecord
  | [], _ => none
  | (k, r) :: rest, uid => if k = uid then some r else lookupUser rest uid

/-- Dict assignment `users[uid] = r`: replace the binding when present,
append it otherwise. -/
def setUser : LocalDB → String → UserRecord → LocalDB
  | [], uid, r => [(uid, r)]
  | (k, r0) :: rest, uid, r =>
      if k = uid then (k, r) :: rest else (k, r0) :: setUser rest uid r

/-- A Firestore sub-collection: document id to document data. -/
abbrev Collection := List (String × EventData)

/-- Firestore `collection(...).document(docId).set(data)`: overwrite the
document when it exists, create it otherwise. -/
def setDoc (c : Collection) (docId : String) (e : EventData) : Collection :=
  if c.any (fun p => p.1 = docId) then
    c.map (fun p => if p.1 = docId then (docId, e) else p)
  else
    c ++ [(docId, e)]

/-- The two sub-collections the service keeps per user: `events` (current
schema) and `fall_events` (legacy schema). -/
structure FsUser where
  events : Collection
  fall_events : Collection
deriving DecidableEq, Repr

def FsUser.empty : FsUser := ⟨[], []⟩

/-- The Firestore `users` collection. -/
abbrev FirestoreDB := List (String × FsUser)

def lookupFsUser : FirestoreDB → String → Option FsUser
  | [], _ => none
  | (k, r) :: rest, uid => if k = uid then some r else lookupFsUser rest uid

def setFsUser : FirestoreDB → String → FsUser → FirestoreDB
  | [], uid, r => [(uid, r)]
  | (k, r0) :: rest, uid, r =>
      if k = uid then (k, r) :: rest else (k, r0) :: setFsUser rest uid r

/-- Full `DatabaseService` state: the mode flag `is_available` chosen at
construction, the remote store, the in-memory local store, and the content
of the backing `local_db.json` file. -/
structure DbState where
  is_available : Bool
  firestore : FirestoreDB
  mem : LocalDB
  file : LocalDB
deriving DecidableEq, Repr

def DbState.localEmpty : DbState := ⟨false, [], [], []⟩

def DbState.durableEmpty : DbState := ⟨true, [], [], []⟩

/-- `DatabaseService._save_local_data` (lines 64-72): mirrors the memory
to the JSON file; a write failure (`fileOk = false`) is caught inside the
method and only logged, so the file keeps its old content and no error
reaches the caller. -/
def save_local_data (fileOk : Bool) (s : DbState) : DbState :=
  if fileOk then { s with file := s.mem } else s

/-- Local branch of `DatabaseService.save_fall_event` (lines 144-160):
append the normalised event to both the `events` and the `fall_events`
list of the user (creating user record and lists as needed), mirror to
file, return `True`. -/
def save_fall_event_local (fileOk : Bool) (ev : EventData) (uid : String)
    (s : DbState) : Bool × DbState :=
  let r := (lookupUser s.mem uid).getD UserRecord.empty
  let r := { r with events := some ((r.events.getD []) ++ [ev]) }
  let r := { r with fall_events := some ((r.fall_events.getD []) ++ [ev]) }
  let s := { s with mem := setUser s.mem uid r }
  (true, save_local_data fileOk s)

/-- Durable branch of `DatabaseService.save_fall_event` (lines 162-178).
Both `set` calls sit in one `try` block: `failCur`/`failLeg` say whether
the `events` resp. `fall_events` write throws. When the first write
throws, control jumps to `except` and the second write is never executed;
when the second throws, the first write stays in place. Either way the
`except` branch returns `False` and no exception escapes. -/
def save_fall_event_durable (failCur failLeg : Bool) (ev : EventData)
    (uid : String) (s : DbState) : Bool × DbState :=
  if failCur then (false, s)
  else
    let u := (lookupFsUser s.firestore uid).getD FsUser.empty
    let u1 := { u with events := setDoc u.events (ev.id.getD "") ev }
    let s1 := { s with firestore := setFsUser s.firestore uid u1 }
    if failLeg then (false, s1)
    else
      let u2 := { u1 with fall_events := setDoc u1.fall_events (ev.id.getD "") ev }
      (true, { s1 with firestore := setFsUser s1.firestore uid u2 })

/-- `DatabaseService.save_fall_event` (lines 128-178): normalise the
event fields, then branch on `is_available`. -/
def save_fall_event (failCur failLeg fileOk : Bool) (freshId : String)
    (uid : String) (now : Int) (e : EventData) (s : DbState) : Bool × DbState :=
  let ev := normalizeEvent freshId uid now e
  if s.is_available then save_fall_event_durable failCur failLeg ev uid s
  else save_fall_event_local fileOk ev uid s

/-- Stable descending insertion on a key: `x` goes in front of the first
element whose key is not larger, so earlier elements win ties. -/
def insertByDesc (key : EventData → Int) (x : EventData) : List EventData → List EventData
  | [] => [x]
  | y :: ys => if key y ≤ key x then x :: y :: ys else y :: insertByDesc key x ys

/-- Stable sort by descending key, the behaviour of Python
`sorted(events, key=..., reverse=True)`. -/
def sortByDesc (key : EventData → Int) (l : List EventData) : List EventData :=
  l.foldr (insertByDesc key) []

/-- Firestore fills `doc.id` back into the dict when the `id` key is
absent (`get_fall_events`, lines 212-213 and 222-223). -/
def withDocId (docId : String) (e : EventData) : EventData :=
  { e with id := some (e.id.getD docId) }

/-- `DatabaseService.get_fall_events` (lines 180-231). Local mode: take
the `events` list (falling back to `fall_events` when it is empty), sort
descending by `timestamp`-with-`created_at`-default, slice to `limit`.
Durable mode: query `events` ordered by `timestamp` descending with the
cap, and when that is empty, query `fall_events` ordered by `created_at`
descending. Firestore `order_by` is modelled as a total descending sort
on the field with default `0`; every event written through
`save_fall_event` carries both fields. -/
def get_fall_events (s : DbState) (uid : String) (limit : Nat) : List EventData :=
  if s.is_available then
    let u := (lookupFsUser s.firestore uid).getD FsUser.empty
    let events := (sortByDesc (fun e => e.timestamp.getD 0)
        (u.events.map (fun p => withDocId p.1 p.2))).take limit
    if events.isEmpty then
      (sortByDesc (fun e => e.created_at.getD 0)
        (u.fall_events.map (fun p => withDocId p.1 p.2))).take limit
    else events
  else
    match lookupUser s.mem uid with
    | none => []
    | some r =>
      let events := r.events.getD []
      let events := if events.isEmpty then r.fall_events.getD [] else events
      (sortByDesc evKey events).take limit

/-- Local branch of `DatabaseService.delete_fall_event` (lines 309-324):
`False` when the user is unknown; otherwise drop, from each collection
that exists, every event whose `id` equals `event_id`, mirror to file,
return `True` (also when nothing matched). -/
def delete_fall_event_local (fileOk : Bool) (uid event_id : String)
    (s : DbState) : Bool × DbState :=
  match lookupUser s.mem uid with
  | none => (false, s)
  | some r =>
    let r := { r with
      events := r.events.map (fun l => l.filter (fun e => e.id ≠ some event_id))
      fall_events := r.fall_events.map (fun l => l.filter (fun e => e.id ≠ some event_id)) }
    (true, save_local_data fileOk { s with mem := setUser s.mem uid r })

/-- `Settings.AUTO_DELETE_OLD_EVENTS`. -/
def autoDeleteOldEvents : Bool := true

/-- `Settings.MAX_EVENT_STORAGE_DAYS`. -/
def maxEventStorageDays : Int := 30

/-- Local branch of `DatabaseService.cleanup_old_events` (lines 340-364):
no-op returning 0 when auto-delete is off or the user is unknown; else,
with `cutoff = now - 30 days`, count and drop from each existing
collection the events with effective timestamp strictly below the
cutoff, keeping exactly those at or above it; the file is rewritten only
when something was deleted. Returns the number of entries removed. -/
def cleanup_old_events_local (fileOk : Bool) (uid : String) (now : Int)
    (s : DbState) : Nat × DbState :=
  if autoDeleteOldEvents = false then (0, s)
  else
    let cutoff := now - maxEventStorageDays * 24 * 60 * 60
    match lookupUser s.mem uid with
    | none => (0, s)
    | some r =>
      let countOld : List EventData → Nat :=
        fun l => (l.filter (fun e => evKey e < cutoff)).length
      let keep : List EventData → List EventData :=
        fun l => l.filter (fun e => cutoff ≤ evKey e)
      let deleted := countOld (r.events.getD []) + countOld (r.fall_events.getD [])
      let r := { r with events := r.events.map keep, fall_events := r.fall_events.map keep }
      let s1 := { s with mem := setUser s.mem uid r }
      (deleted, if 0 < deleted then save_local_data fileOk s1 else s1)

/-- `Settings.FALL_DETECTION_COOLDOWN` (5 seconds). -/
def fallDetectionCooldown : Int := 5

/-- One YOLO box as unpacked by `FallDetector._process_results`. -/
structure Detection where
  class_id : Nat
  class_name : String
  confidence : ℚ
deriving DecidableEq, Repr

/-- Python `str.lower()`: lower-case every character. -/
def strLower (s : String) : String := ⟨s.data.map Char.toLower⟩

/-- `FallDetector._is_fall_class` (lines 221-234): the lowered class name
is on the allow-list, or the class id is the reserved index `0`. -/
def is_fall_class (class_name : String) (class_id : Nat) : Bool :=
  ["fall", "falling", "fallen", "person_fallen", "düşme"].contains (strLower class_name)
    || class_id == 0

/-- Mutable detector state relevant to the cooldown:
`last_detection_time` (initially `0`) and `detection_count`. -/
structure DetectorState where
  last_detection_time : Int
  detection_count : Nat
deriving DecidableEq, Repr

/-- The result dict of `detect_fall` (performance metadata aside). -/
structure DetectionResult where
  fall_detected : Bool
  confidence : ℚ
  detections : List Detection
  detection_count : Nat
  timestamp : Int
deriving DecidableEq, Repr

/-- `FallDetector._create_empty_result` (lines 236-247). -/
def create_empty_result (now : Int) : DetectionResult :=
  { fall_detected := false
    confidence := 0
    detections := []
    detection_count := 0
    timestamp := now }

/-- Success path of `FallDetector._process_results` (lines 167-215):
collect boxes, flag a raw fall when any box is a fall class and take the
maximal confidence over those boxes, then suppress the flag when the
tick is within `detection_cooldown` of `last_detection_time`. The
suppression only rewrites `fall_detected`; confidence and boxes stay. -/
def process_results (s : DetectorState) (now : Int) (boxes : List Detection) : DetectionResult :=
  let rawFall := boxes.any (fun b => is_fall_class b.class_name b.class_id)
  let maxConf := boxes.foldl
    (fun m b => if is_fall_class b.class_name b.class_id then max m b.confidence else m) 0
  let fall := if rawFall && decide (now - s.last_detection_time < fallDetectionCooldown)
    then false else rawFall
  { fall_detected := fall
    confidence := maxConf
    detections := boxes
    detection_count := boxes.length
    timestamp := now }

/-- `FallDetector.detect_fall` (lines 122-165). The whole body sits in a
`try` block; `inference` is the outcome of preprocessing, model
inference and result processing, `.error` standing for a raised
exception (or a `None` preprocessed image). On `fall_detected`,
`detection_count` is bumped and `last_detection_time` set to the tick
time; an error degrades to the empty result and leaves the state as it
was. Returns the result together with the new state. -/
def detect_fall (s : DetectorState) (is_loaded : Bool)
    (inference : Except String (List Detection)) (now : Int) :
    DetectionResult × DetectorState :=
  if is_loaded = false then (create_empty_result now, s)
  else
    match inference with
    | .error _ => (create_empty_result now, s)
    | .ok boxes =>
      let r := process_results s now boxes
      if r.fall_detected then
        (r, { last_detection_time := now, detection_count := s.detection_count + 1 })
      else (r, s)

/-- The event payload built by `CameraService._handle_fall_detection`
(lines 257-287): `id` is `str(int(time.time() * 1000))`, and `id`,
`user_id`, `timestamp`, `created_at` are all set before the event is
handed to `save_fall_event`. -/
def mkFallEvent (uid : String) (now : Int) (r : DetectionResult) : EventData :=
  { id := some (toString (now * 1000))
    user_id := some uid
    timestamp := some now
    created_at := some now
    confidence := r.confidence
    status := "detected"
    processed := false }

/-- One tick of the processing loop of `CameraService._processing_loop`
(lines 220-252) restricted to the detection path: run `detect_fall`; when
it reports a fall, synthesise the `FallEvent` payload. -/
def coordinatorTick (uid : String) (s : DetectorState)
    (now : Int) (inference : Except String (List Detection)) :
    DetectorState × Option EventData :=
  let d := detect_fall s true inference now
  if d.1.fall_detected then (d.2, some (mkFallEvent uid now d.1)) else (d.2, none)

/-- A run of the processing loop over a sequence of ticks, each a clock
reading paired with the inference outcome; collects the created events
in order. -/
def runTicks (uid : String) (s : DetectorState) :
    List (Int × Except String (List Detection)) → DetectorState × List EventData
  | [] => (s, [])
  | (t, inf) :: rest =>
    let step := coordinatorTick uid s t inf
    let next := runTicks uid step.1 rest
    (next.1, step.2.toList ++ next.2)

/-- A convenience raw-detection tick: a single box of the `fall` class,
as seen by the detector when a fall is in frame. -/
def fallBox : Detection := ⟨0, "fall", 1⟩

/-- Per-user notification settings read by `send_fall_alert`; the flags
mirror `settings.get(..., default)` with the source defaults. -/
structure ChannelSettings where
  email_notification : Bool
  sms_notification : Bool
  telegram_notification : Bool
  desktop_notification : Bool
  sound_notification : Bool
  email : Option String
  phone_number : Option String
  telegram_chat_id : Option String
deriving DecidableEq, Repr

/-- The notification channels of `notification_service.py`. -/
inductive Channel
  | email
  | sms
  | telegram
  | desktop
  | sound
deriving DecidableEq, Repr

/-- `NotificationService` state: `last_notification_times` keyed by user
(empty at start) and the 60-second `notification_cooldown`. -/
structure NotifierState where
  last_notification_times : List (String × Int)
deriving DecidableEq, Repr

/-- `self.notification_cooldown = 60` seconds. -/
def notificationCooldown : Int := 60

def lookupLastTime : List (String × Int) → String → Option Int
  | [], _ => none
  | (k, t) :: rest, uid => if k = uid then some t else lookupLastTime rest uid

def setLastTime : List (String × Int) → String → Int → List (String × Int)
  | [], uid, t => [(uid, t)]
  | (k, t0) :: rest, uid, t =>
      if k = uid then (k, t) :: rest else (k, t0) :: setLastTime rest uid t

/-- `NotificationService._check_cooldown` (lines 168-177): within the
window (`last` defaulting to `0`) return `False` without touching state;
otherwise record `now` for the user immediately and return `True`. -/
def check_cooldown (st : NotifierState) (uid : String) (now : Int) :
    Bool × NotifierState :=
  let last := (lookupLastTime st.last_notification_times uid).getD 0
  if now - last < notificationCooldown then (false, st)
  else (true, ⟨setLastTime st.last_notification_times uid now⟩)

/-- The channel threads `send_fall_alert` (lines 112-161) would launch
for given settings: each enabled channel with its addressing data. -/
def enabledChannels (cs : ChannelSettings) : List Channel :=
  (if cs.email_notification && cs.email.isSome then [Channel.email] else [])
    ++ (if cs.sms_notification && cs.phone_number.isSome then [Channel.sms] else [])
    ++ (if cs.telegram_notification && cs.telegram_chat_id.isSome then [Channel.telegram] else [])
    ++ (if cs.desktop_notification then [Channel.desktop] else [])
    ++ (if cs.sound_notification then [Channel.sound] else [])

/-- `NotificationService.send_fall_alert` (lines 93-166): load the user
settings (`none` models a user without stored settings — no-op); check
the cooldown, which on success records the timestamp before any channel
is dispatched; then dispatch every enabled channel. Returns the list of
dispatched channels and the new state. -/
def send_fall_alert (st : NotifierState) (uid : String)
    (userSettings : Option ChannelSettings) (now : Int) :
    List Channel × NotifierState :=
  match userSettings with
  | none => ([], st)
  | some cs =>
    let (ok, st1) := check_cooldown st uid now
    if ok = false then ([], st1)
    else (enabledChannels cs, st1)

/-! Injectivity of decimal rendering, needed because
`CameraService._handle_fall_detection` derives event ids from clock
readings via `str(int(time.time() * 1000))`. -/

/-- Reading one more decimal digit onto an accumulator. -/
def decReadStep (a : Nat) (c : Char) : Nat := a * 10 + (c.toNat - 48)

lemma digitChar_toNat {d : Nat} (h : d < 10) : (Nat.digitChar d).toNat = 48 + d := by
  interval_cases d <;> decide

lemma toDigitsCore_append (fuel : Nat) : ∀ (n : Nat) (ds : List Char),
    Nat.toDigitsCore 10 fuel n ds = Nat.toDigitsCore 10 fuel n [] ++ ds := by
  induction fuel with
  | zero => intro n ds; simp [Nat.toDigitsCore]
  | succ fuel ih =>
    intro n ds
    simp only [Nat.toDigitsCore]
    by_cases h : n / 10 = 0
    · simp [h]
    · rw [if_neg h, if_neg h, ih (n / 10) [Nat.digitChar (n % 10)],
        ih (n / 10) (Nat.digitChar (n % 10) :: ds), List.append_assoc]
      rfl

lemma toDigitsCore_fuel : ∀ (n f1 f2 : Nat), n < f1 → n < f2 →
    Nat.toDigitsCore 10 f1 n [] = Nat.toDigitsCore 10 f2 n [] := by
  intro n
  induction n using Nat.strong_induction_on with
  | _ n ih =>
    intro f1 f2 h1 h2
    match f1, f2 with
    | f1 + 1, f2 + 1 =>
      simp only [Nat.toDigitsCore]
      by_cases h : n / 10 = 0
      · simp [h]
      · rw [if_neg h, if_neg h,
          toDigitsCore_append f1 (n / 10), toDigitsCore_append f2 (n / 10)]
        have hd : n / 10 < n := Nat.div_lt_self (by omega) (by omega)
        rw [ih (n / 10) hd f1 f2 (by omega) (by omega)]

lemma decRead_toDigits (n : Nat) :
    (Nat.toDigitsCore 10 (n + 1) n []).foldl decReadStep 0 = n := by
  induction n using Nat.strong_induction_on with
  | _ n ih =>
    simp only [Nat.toDigitsCore]
    by_cases h : n / 10 = 0
    · rw [if_pos h]
      have hlt : n % 10 < 10 := Nat.mod_lt _ (by omega)
      simp [decReadStep, digitChar_toNat hlt]
      omega
    · rw [if_neg h, toDigitsCore_append n (n / 10), List.foldl_append]
      have hd : n / 10 < n := Nat.div_lt_self (by omega) (by omega)
      rw [toDigitsCore_fuel (n / 10) n (n / 10 + 1) hd (by omega)]
      rw [ih (n / 10) hd]
      have hlt : n % 10 < 10 := Nat.mod_lt _ (by omega)
      simp [decReadStep, digitChar_toNat hlt]
      omega

lemma natRepr_injective {a b : Nat} (h : Nat.repr a = Nat.repr b) : a = b := by
  have hd : Nat.toDigits 10 a = Nat.toDigits 10 b := by
    unfold Nat.repr at h
    exact congrArg String.data h
  unfold Nat.toDigits at hd
  have ha := decRead_toDigits a
  have hb := decRead_toDigits b
  rw [hd] at ha
  omega

lemma intToString_inj_nonneg {a b : Int} (ha : 0 ≤ a) (hb : 0 ≤ b)
    (h : toString a = toString b) : a = b := by
  obtain ⟨m, rfl⟩ := Int.eq_ofNat_of_zero_le ha
  obtain ⟨k, rfl⟩ := Int.eq_ofNat_of_zero_le hb
  have h2 : Nat.repr m = Nat.repr k := h
  exact congrArg Int.ofNat (natRepr_injective h2)

/-! Helper lemmas about the store primitives. -/

lemma lookupUser_setUser (db : LocalDB) (uid : String) (r : UserRecord) :
    lookupUser (setUser db uid r) uid = some r := by
  induction db with
  | nil => simp [setUser, lookupUser]
  | cons p rest ih =>
    obtain ⟨k, r0⟩ := p
    by_cases h : k = uid
    · simp [setUser, lookupUser, h]
    · simp [setUser, lookupUser, h, ih]

lemma lookupFsUser_setFsUser (db : FirestoreDB) (uid : String) (r : FsUser) :
    lookupFsUser (setFsUser db uid r) uid = some r := by
  induction db with
  | nil => simp [setFsUser, lookupFsUser]
  | cons p rest ih =>
    obtain ⟨k, r0⟩ := p
    by_cases h : k = uid
    · simp [setFsUser, lookupFsUser, h]
    · simp [setFsUser, lookupFsUser, h, ih]

lemma lookupLastTime_setLastTime (l : List (String × Int)) (uid : String) (t : Int) :
    lookupLastTime (setLastTime l uid t) uid = some t := by
  induction l with
  | nil => simp [setLastTime, lookupLastTime]
  | cons p rest ih =>
    obtain ⟨k, t0⟩ := p
    by_cases h : k = uid
    · simp [setLastTime, lookupLastTime, h]
    · simp [setLastTime, lookupLastTime, h, ih]

lemma save_local_data_mem (fileOk : Bool) (s : DbState) :
    (save_local_data fileOk s).mem = s.mem := by
  cases fileOk <;> rfl

lemma save_local_data_is_available (fileOk : Bool) (s : DbState) :
    (save_local_data fileOk s).is_available = s.is_available := by
  cases fileOk <;> rfl

lemma normalizeEvent_idem (f1 f2 uid1 uid2 : String) (n1 n2 : Int) (e : EventData) :
    normalizeEvent f2 uid2 n2 (normalizeEvent f1 uid1 n1 e) = normalizeEvent f1 uid1 n1 e := by
  simp [normalizeEvent]

lemma normalizeEvent_id_of_isSome (f uid : String) (n : Int) (e : EventData)
    (h : e.id.isSome) : (normalizeEvent f uid n e).id = e.id := by
  obtain ⟨i, hi⟩ := Option.isSome_iff_exists.1 h
  simp [normalizeEvent, hi]

/-! Helper lemmas about the stable descending sort. -/

lemma insertByDesc_perm (key : EventData → Int) (x : EventData) (l : List EventData) :
    List.Perm (insertByDesc key x l) (x :: l) := by
  induction l with
  | nil => exact List.Perm.refl _
  | cons y ys ih =>
    simp only [insertByDesc]
    by_cases h : key y ≤ key x
    · rw [if_pos h]
    · rw [if_neg h]
      exact (ih.cons y).trans (List.Perm.swap x y ys)

lemma sortByDesc_perm (key : EventData → Int) (l : List EventData) :
    List.Perm (sortByDesc key l) l := by
  induction l with
  | nil => exact List.Perm.refl _
  | cons x xs ih =>
    exact ((insertByDesc_perm key x (sortByDesc key xs)).trans (ih.cons x))

lemma insertByDesc_pairwise (key : EventData → Int) (x : EventData)
    (l : List EventData) (h : l.Pairwise (fun a b => key b ≤ key a)) :
    (insertByDesc key x l).Pairwise (fun a b => key b ≤ key a) := by
  induction l with
  | nil => simp [insertByDesc]
  | cons y ys ih =>
    obtain ⟨hy, hys⟩ := List.pairwise_cons.1 h
    simp only [insertByDesc]
    by_cases hle : key y ≤ key x
    · rw [if_pos hle]
      refine List.pairwise_cons.2 ⟨?_, h⟩
      intro z hz
      rcases List.mem_cons.1 hz with rfl | hz
      · exact hle
      · exact le_trans (hy z hz) hle
    · rw [if_neg hle]
      refine List.pairwise_cons.2 ⟨?_, ih hys⟩
      intro z hz
      have hz2 : z = x ∨ z ∈ ys := by
        have := (insertByDesc_perm key x ys).mem_iff.1 hz
        simpa using this
      rcases hz2 with rfl | hz2
      · omega
      · exact hy z hz2

lemma sortByDesc_pairwise (key : EventData → Int) (l : List EventData) :
    (sortByDesc key l).Pairwise (fun a b => key b ≤ key a) := by
  induction l with
  | nil => simp [sortByDesc]
  | cons x xs ih => exact insertByDesc_pairwise key x _ ih

/-- A concrete, fully populated event payload for concrete scenarios. -/
def sampleEvent : EventData :=
  { id := some "e1"
    user_id := some "u1"
    timestamp := some 10
    created_at := some 10
    confidence := 1
    status := "detected"
    processed := false }

/-- A local store already holding one user with one saved event. -/
def stateWithU1 : DbState :=
  ⟨false, [], [("u1", ⟨some [sampleEvent], some [sampleEvent]⟩)], []⟩

/-- C9: when inference or result processing raises (the `.error` outcome
of the `try` block), `detect_fall` returns a result with
`fall_detected = false`, `confidence = 0` and an empty detections list,
leaves the detector state untouched, and — being a total function of the
outcome — propagates no exception to the caller. -/
theorem C9_detect_fall_error_degrades (s : DetectorState) (is_loaded : Bool)
    (msg : String) (now : Int) :
    (detect_fall s is_loaded (.error msg) now).1.fall_detected = false ∧
    (detect_fall s is_loaded (.error msg) now).1.confidence = 0 ∧
    (detect_fall s is_loaded (.error msg) now).1.detections = [] ∧
    (detect_fall s is_loaded (.error msg) now).2 = s := by
  cases is_loaded <;> simp [detect_fall, create_empty_result]

/-- C10: in local mode, `delete_fall_event` returns `false` exactly when
the user is absent (leaving the store untouched), and otherwise removes
from both collections every event whose `id` equals `event_id` and
returns `true`, also when no event matched. -/
theorem C10_delete_fall_event_local (fileOk : Bool) (uid eid : String) (s : DbState) :
    (lookupUser s.mem uid = none → delete_fall_event_local fileOk uid eid s = (false, s)) ∧
    (∀ r, lookupUser s.mem uid = some r →
      (delete_fall_event_local fileOk uid eid s).1 = true ∧
      lookupUser (delete_fall_event_local fileOk uid eid s).2.mem uid =
        some { events := r.events.map (fun l => l.filter (fun e => e.id ≠ some eid))
               fall_events := r.fall_events.map (fun l => l.filter (fun e => e.id ≠ some eid)) }) := by
  constructor
  · intro h
    simp [delete_fall_event_local, h]
  · intro r h
    refine ⟨by simp [delete_fall_event_local, h], ?_⟩
    simp [delete_fall_event_local, h, save_local_data_mem, lookupUser_setUser]

/-- Witness for C10: deleting for an unknown user returns `false`
without touching the store; deleting a present id returns `true`. -/
theorem C10_witness :
    delete_fall_event_local true "u1" "e9" DbState.localEmpty = (false, DbState.localEmpty) ∧
    (delete_fall_event_local true "u1" "e1" stateWithU1).1 = true :=
  ⟨(C10_delete_fall_event_local true "u1" "e9" DbState.localEmpty).1 rfl,
   ((C10_delete_fall_event_local true "u1" "e1" stateWithU1).2
      ⟨some [sampleEvent], some [sampleEvent]⟩ (by decide)).1⟩

/-- Counterexample to C2: in local mode, with the backing-file write
failing (`fileOk = false`), `save_fall_event` still returns `true` — not
`false` as the claim states — and the file keeps its stale content. -/
theorem C2_counterexample :
    (save_fall_event false false false "f1" "u1" 10 sampleEvent DbState.localEmpty).1 = true ∧
    (save_fall_event false false false "f1" "u1" 10 sampleEvent DbState.localEmpty).2.file = [] := by
  decide

/-- C2 as amended: a local-mode `save_fall_event` always returns `true`;
the event is appended to the in-memory collections; a failing file write
is caught and logged inside `_save_local_data`, so the caller sees no
failure and the on-disk copy silently keeps its old content. -/
theorem C2_amended_local_save (fileOk failCur failLeg : Bool) (f uid : String)
    (now : Int) (e : EventData) (s : DbState) (h : s.is_available = false) :
    (save_fall_event failCur failLeg fileOk f uid now e s).1 = true ∧
    (fileOk = false → (save_fall_event failCur failLeg fileOk f uid now e s).2.file = s.file) ∧
    (∃ r, lookupUser (save_fall_event failCur failLeg fileOk f uid now e s).2.mem uid = some r ∧
      normalizeEvent f uid now e ∈ r.events.getD [] ∧
      normalizeEvent f uid now e ∈ r.fall_events.getD []) := by
  refine ⟨by simp [save_fall_event, h, save_fall_event_local], ?_, ?_⟩
  · intro hf
    subst hf
    simp [save_fall_event, h, save_fall_event_local, save_local_data]
  · refine ⟨{ events := some ((((lookupUser s.mem uid).getD UserRecord.empty).events.getD [])
                ++ [normalizeEvent f uid now e])
              fall_events := some ((((lookupUser s.mem uid).getD UserRecord.empty).fall_events.getD [])
                ++ [normalizeEvent f uid now e]) }, ?_, by simp, by simp⟩
    simp [save_fall_event, h, save_fall_event_local, save_local_data_mem, lookupUser_setUser]

/-- Witness for C2 as amended, at the counterexample input. -/
theorem C2_amended_witness :
    (save_fall_event false false false "f1" "u1" 10 sampleEvent DbState.localEmpty).1 = true ∧
    (save_fall_event false false false "f1" "u1" 10 sampleEvent DbState.localEmpty).2.file =
      DbState.localEmpty.file :=
  ⟨(C2_amended_local_save false false false "f1" "u1" 10 sampleEvent DbState.localEmpty rfl).1,
   (C2_amended_local_save false false false "f1" "u1" 10 sampleEvent DbState.localEmpty rfl).2.1 rfl⟩

/-- Counterexample to C3: when the durable write to the current
(`events`) collection throws (`failCur = true`) while the legacy write
would succeed (`failLeg = false`), the call returns `false` and the
state is completely unchanged: the legacy (`fall_events`) write was
never attempted, because both writes share one `try` block. -/
theorem C3_counterexample :
    (save_fall_event true false true "f1" "u1" 10 sampleEvent DbState.durableEmpty).1 = false ∧
    (save_fall_event true false true "f1" "u1" 10 sampleEvent DbState.durableEmpty).2 =
      DbState.durableEmpty := by
  decide

/-- C3 as amended: durable-mode `save_fall_event` performs the current
write and then the legacy write inside a single `try` block: when the
current write throws, it returns `false` with nothing written (the
legacy write is never attempted); when only the legacy write throws, it
returns `false` but the current write stays in place (no rollback); when
both succeed it returns `true` with both collections updated. In every
case the call returns a boolean and no exception escapes. -/
theorem C3_amended_durable_save (failCur failLeg fileOk : Bool) (f uid : String)
    (now : Int) (e : EventData) (s : DbState) (h : s.is_available = true) :
    (failCur = true →
      save_fall_event failCur failLeg fileOk f uid now e s = (false, s)) ∧
    (failCur = false → failLeg = true →
      (save_fall_event failCur failLeg fileOk f uid now e s).1 = false ∧
      lookupFsUser (save_fall_event failCur failLeg fileOk f uid now e s).2.firestore uid =
        some { events := setDoc ((lookupFsUser s.firestore uid).getD FsUser.empty).events
                 ((normalizeEvent f uid now e).id.getD "") (normalizeEvent f uid now e)
               fall_events := ((lookupFsUser s.firestore uid).getD FsUser.empty).fall_events }) ∧
    (failCur = false → failLeg = false →
      (save_fall_event failCur failLeg fileOk f uid now e s).1 = true ∧
      lookupFsUser (save_fall_event failCur failLeg fileOk f uid now e s).2.firestore uid =
        some { events := setDoc ((lookupFsUser s.firestore uid).getD FsUser.empty).events
                 ((normalizeEvent f uid now e).id.getD "") (normalizeEvent f uid now e)
               fall_events := setDoc ((lookupFsUser s.firestore uid).getD FsUser.empty).fall_events
                 ((normalizeEvent f uid now e).id.getD "") (normalizeEvent f uid now e) }) := by
  refine ⟨?_, ?_, ?_⟩
  · intro hc
    subst hc
    simp [save_fall_event, h, save_fall_event_durable]
  · intro hc hl
    subst hc; subst hl
    simp [save_fall_event, h, save_fall_event_durable, lookupFsUser_setFsUser]
  · intro hc hl
    subst hc; subst hl
    simp [save_fall_event, h, save_fall_event_durable, lookupFsUser_setFsUser]

/-- Witness for C3 as amended, exercising the current-write failure at
the counterexample input. -/
theorem C3_amended_witness :
    save_fall_event true false true "f1" "u1" 10 sampleEvent DbState.durableEmpty =
      (false, DbState.durableEmpty) :=
  (C3_amended_durable_save true false true "f1" "u1" 10 sampleEvent
    DbState.durableEmpty rfl).1 rfl

/-- C7: local-mode `cleanup_old_events` with cutoff `now - 30 days`
removes from each stored collection exactly the entries whose effective
timestamp is strictly below the cutoff, keeps exactly those at or above
it, and returns the number of entries removed; for an unknown user it
removes nothing and returns `0`. -/
theorem C7_cleanup_old_events_local (fileOk : Bool) (uid : String) (now : Int) (s : DbState) :
    (lookupUser s.mem uid = none → cleanup_old_events_local fileOk uid now s = (0, s)) ∧
    (∀ r, lookupUser s.mem uid = some r →
      (cleanup_old_events_local fileOk uid now s).1 =
        ((r.events.getD []).filter
          (fun e => evKey e < now - maxEventStorageDays * 24 * 60 * 60)).length +
        ((r.fall_events.getD []).filter
          (fun e => evKey e < now - maxEventStorageDays * 24 * 60 * 60)).length ∧
      lookupUser (cleanup_old_events_local fileOk uid now s).2.mem uid =
        some { events := r.events.map
                 (fun l => l.filter (fun e => now - maxEventStorageDays * 24 * 60 * 60 ≤ evKey e))
               fall_events := r.fall_events.map
                 (fun l => l.filter (fun e => now - maxEventStorageDays * 24 * 60 * 60 ≤ evKey e)) }) := by
  constructor
  · intro h
    unfold cleanup_old_events_local
    rw [h]
    rfl
  · intro r h
    have key : cleanup_old_events_local fileOk uid now s =
        ((((r.events.getD []).filter
            (fun e => evKey e < now - maxEventStorageDays * 24 * 60 * 60)).length +
          ((r.fall_events.getD []).filter
            (fun e => evKey e < now - maxEventStorageDays * 24 * 60 * 60)).length),
         (if 0 < (((r.events.getD []).filter
              (fun e => evKey e < now - maxEventStorageDays * 24 * 60 * 60)).length +
            ((r.fall_events.getD []).filter
              (fun e => evKey e < now - maxEventStorageDays * 24 * 60 * 60)).length)
          then save_local_data fileOk { s with mem := setUser s.mem uid ({
              events := r.events.map
                (fun l => l.filter (fun e => now - maxEventStorageDays * 24 * 60 * 60 ≤ evKey e))
              fall_events := r.fall_events.map
                (fun l => l.filter (fun e => now - maxEventStorageDays * 24 * 60 * 60 ≤ evKey e)) }) }
          else { s with mem := setUser s.mem uid ({
              events := r.events.map
                (fun l => l.filter (fun e => now - maxEventStorageDays * 24 * 60 * 60 ≤ evKey e))
              fall_events := r.fall_events.map
                (fun l => l.filter (fun e => now - maxEventStorageDays * 24 * 60 * 60 ≤ evKey e)) }) })) := by
      unfold cleanup_old_events_local
      rw [h]
      rfl
    rw [key]
    refine ⟨rfl, ?_⟩
    split <;> simp only [save_local_data_mem, lookupUser_setUser]

/-- Witness for C7: cleaning an unknown user is a no-op; for a user
holding one event dated 10 with the clock far past the retention
window, that entry is removed from both collections (count 2). -/
theorem C7_witness :
    cleanup_old_events_local true "u1" 0 DbState.localEmpty = (0, DbState.localEmpty) ∧
    (cleanup_old_events_local true "u1" 10000000 stateWithU1).1 = 2 :=
  ⟨(C7_cleanup_old_events_local true "u1" 0 DbState.localEmpty).1 rfl,
   by
    have h := ((C7_cleanup_old_events_local true "u1" 10000000 stateWithU1).2
      ⟨some [sampleEvent], some [sampleEvent]⟩ (by decide)).1
    rw [h]
    decide⟩

/-- A settings record with every channel enabled and addressed. -/
def csAll : ChannelSettings :=
  ⟨true, true, true, true, true, some "a@b.c", some "5551234", some "chat7"⟩

/-- C8: `send_fall_alert` dispatches no channel when called within the
60-second per-user cooldown of a previous non-suppressed alert, and a
non-suppressed call records its timestamp inside `_check_cooldown`,
before any channel dispatch; hence two calls for one user within one
window can never both dispatch. Part one: a call that passes the
cooldown check stores its time (this happens before dispatch in the
source, `send_fall_alert` line 105 versus lines 159-161). Part two: a
call within the window of the recorded time dispatches nothing and
leaves the state unchanged. Part three: after any call that dispatched
at least one channel, a second call within the window dispatches
nothing. -/
theorem C8_alert_cooldown :
    (∀ (st : NotifierState) (uid : String) (cs : ChannelSettings) (now : Int),
      (check_cooldown st uid now).1 = true →
      (send_fall_alert st uid (some cs) now).2.last_notification_times =
        setLastTime st.last_notification_times uid now) ∧
    (∀ (st : NotifierState) (uid : String) (us : Option ChannelSettings) (t1 t2 : Int),
      lookupLastTime st.last_notification_times uid = some t1 →
      t2 - t1 < notificationCooldown →
      (send_fall_alert st uid us t2).1 = [] ∧ (send_fall_alert st uid us t2).2 = st) ∧
    (∀ (st : NotifierState) (uid : String) (cs1 : ChannelSettings)
       (us2 : Option ChannelSettings) (t1 t2 : Int),
      (send_fall_alert st uid (some cs1) t1).1 ≠ [] →
      t2 - t1 < notificationCooldown →
      (send_fall_alert (send_fall_alert st uid (some cs1) t1).2 uid us2 t2).1 = []) := by
  refine ⟨?_, ?_, ?_⟩
  · intro st uid cs now h
    by_cases hlt : now - (lookupLastTime st.last_notification_times uid).getD 0 <
        notificationCooldown
    · simp [check_cooldown, hlt] at h
    · simp [send_fall_alert, check_cooldown, hlt]
  · intro st uid us t1 t2 h1 h2
    match us with
    | none => exact ⟨rfl, rfl⟩
    | some cs =>
      have hlt : t2 - (lookupLastTime st.last_notification_times uid).getD 0 <
          notificationCooldown := by
        rw [h1]
        simpa using h2
      constructor <;> simp [send_fall_alert, check_cooldown, hlt]
  · intro st uid cs1 us2 t1 t2 h1 h2
    by_cases hlt : t1 - (lookupLastTime st.last_notification_times uid).getD 0 <
        notificationCooldown
    · exact absurd (by simp [send_fall_alert, check_cooldown, hlt]) h1
    · have hst : (send_fall_alert st uid (some cs1) t1).2.last_notification_times =
          setLastTime st.last_notification_times uid t1 := by
        simp [send_fall_alert, check_cooldown, hlt]
      match us2 with
      | none => rfl
      | some cs2 =>
        have hlt2 : t2 - (lookupLastTime
            (send_fall_alert st uid (some cs1) t1).2.last_notification_times uid).getD 0 <
            notificationCooldown := by
          rw [hst, lookupLastTime_setLastTime]
          simpa using h2
        have main : ∀ stx : NotifierState,
            t2 - (lookupLastTime stx.last_notification_times uid).getD 0 <
              notificationCooldown →
            (send_fall_alert stx uid (some cs2) t2).1 = [] := by
          intro stx hx
          simp [send_fall_alert, check_cooldown, hx]
        exact main _ hlt2

/-- Witness for C8: with the cooldown free at t = 100 the alert records
its time; a second call at t = 130 (within 60 s) dispatches nothing. -/
theorem C8_witness :
    (send_fall_alert ⟨[]⟩ "u1" (some csAll) 100).2.last_notification_times =
      setLastTime [] "u1" 100 ∧
    (send_fall_alert ⟨[("u1", 100)]⟩ "u1" (some csAll) 130).1 = [] ∧
    (send_fall_alert (send_fall_alert ⟨[]⟩ "u1" (some csAll) 100).2 "u1" (some csAll) 130).1 = [] :=
  ⟨C8_alert_cooldown.1 ⟨[]⟩ "u1" csAll 100 (by decide),
   (C8_alert_cooldown.2.1 ⟨[("u1", 100)]⟩ "u1" (some csAll) 100 130 (by decide) (by decide)).1,
   C8_alert_cooldown.2.2 ⟨[]⟩ "u1" csAll (some csAll) 100 130 (by decide) (by decide)⟩

/-- Counterexample to C4: in local (fallback) mode, saving the same
event (id `e1`) twice appends it twice, and `get_fall_events` then
returns two entries with that id, not one. -/
theorem C4_counterexample :
    ((get_fall_events
        (save_fall_event false false true "f2" "u1" 11 sampleEvent
          (save_fall_event false false true "f1" "u1" 10 sampleEvent DbState.localEmpty).2).2
        "u1" 50).countP (fun x => x.id == some "e1")) = 2 := by
  decide

/-- C4 as amended: saving twice under the same id is idempotent in
durable mode — the second `document(id).set` overwrites the first, and
`get_fall_events` returns one event with that id — but not in local
mode, where the second save appends a duplicate and `get_fall_events`
returns the id twice. -/
theorem C4_amended_idempotence (f1 f2 uid i : String) (n1 n2 : Int) (e : EventData)
    (hid : e.id = some i) (limit : Nat) (hlim : 2 ≤ limit) :
    ((get_fall_events
        (save_fall_event false false true f2 uid n2 e
          (save_fall_event false false true f1 uid n1 e DbState.durableEmpty).2).2
        uid limit).countP (fun x => x.id == some i)) = 1 ∧
    ((get_fall_events
        (save_fall_event false false true f2 uid n2 e
          (save_fall_event false false true f1 uid n1 e DbState.localEmpty).2).2
        uid limit).countP (fun x => x.id == some i)) = 2 := by
  have hev1 : (normalizeEvent f1 uid n1 e).id = some i := by simp [normalizeEvent, hid]
  have hev2 : (normalizeEvent f2 uid n2 e).id = some i := by simp [normalizeEvent, hid]
  constructor
  · have hsave1 : save_fall_event false false true f1 uid n1 e DbState.durableEmpty =
        (true, ⟨true, [(uid, ⟨[(i, normalizeEvent f1 uid n1 e)],
          [(i, normalizeEvent f1 uid n1 e)]⟩)], [], []⟩) := by
      simp [save_fall_event, DbState.durableEmpty, save_fall_event_durable, lookupFsUser,
        setFsUser, setDoc, hev1, FsUser.empty]
    rw [hsave1]
    have hsave2 : save_fall_event false false true f2 uid n2 e
        (⟨true, [(uid, ⟨[(i, normalizeEvent f1 uid n1 e)],
          [(i, normalizeEvent f1 uid n1 e)]⟩)], [], []⟩ : DbState) =
        (true, ⟨true, [(uid, ⟨[(i, normalizeEvent f2 uid n2 e)],
          [(i, normalizeEvent f2 uid n2 e)]⟩)], [], []⟩) := by
      simp [save_fall_event, save_fall_event_durable, lookupFsUser,
        setFsUser, setDoc, hev2]
    rw [hsave2]
    have hget : get_fall_events (⟨true, [(uid, ⟨[(i, normalizeEvent f2 uid n2 e)],
        [(i, normalizeEvent f2 uid n2 e)]⟩)], [], []⟩ : DbState) uid limit =
        [withDocId i (normalizeEvent f2 uid n2 e)] := by
      have htake : (sortByDesc (fun x => x.timestamp.getD 0)
          [withDocId i (normalizeEvent f2 uid n2 e)]).take limit =
          [withDocId i (normalizeEvent f2 uid n2 e)] :=
        List.take_of_length_le (by
          rw [(sortByDesc_perm _ _).length_eq]
          simpa using Nat.le_trans (by omega) hlim)
      simp [get_fall_events, lookupFsUser, htake]
    rw [hget]
    simp [withDocId, hev2]
  · have hsave1 : save_fall_event false false true f1 uid n1 e DbState.localEmpty =
        (true, ⟨false, [], [(uid, ⟨some [normalizeEvent f1 uid n1 e],
          some [normalizeEvent f1 uid n1 e]⟩)],
          [(uid, ⟨some [normalizeEvent f1 uid n1 e], some [normalizeEvent f1 uid n1 e]⟩)]⟩) := by
      simp [save_fall_event, DbState.localEmpty, save_fall_event_local, lookupUser,
        setUser, UserRecord.empty, save_local_data]
    rw [hsave1]
    have hsave2 : save_fall_event false false true f2 uid n2 e
        (⟨false, [], [(uid, ⟨some [normalizeEvent f1 uid n1 e],
          some [normalizeEvent f1 uid n1 e]⟩)],
          [(uid, ⟨some [normalizeEvent f1 uid n1 e], some [normalizeEvent f1 uid n1 e]⟩)]⟩ :
            DbState) =
        (true, ⟨false, [], [(uid, ⟨some [normalizeEvent f1 uid n1 e, normalizeEvent f2 uid n2 e],
          some [normalizeEvent f1 uid n1 e, normalizeEvent f2 uid n2 e]⟩)],
          [(uid, ⟨some [normalizeEvent f1 uid n1 e, normalizeEvent f2 uid n2 e],
            some [normalizeEvent f1 uid n1 e, normalizeEvent f2 uid n2 e]⟩)]⟩) := by
      simp [save_fall_event, save_fall_event_local, lookupUser, setUser, save_local_data]
    rw [hsave2]
    have hcount : ∀ l : List EventData,
        List.Perm l [normalizeEvent f1 uid n1 e, normalizeEvent f2 uid n2 e] →
        l.countP (fun x => x.id == some i) = 2 := by
      intro l hp
      rw [hp.countP_eq]
      simp [hev1, hev2]
    have hget : get_fall_events (⟨false, [],
        [(uid, ⟨some [normalizeEvent f1 uid n1 e, normalizeEvent f2 uid n2 e],
          some [normalizeEvent f1 uid n1 e, normalizeEvent f2 uid n2 e]⟩)],
        [(uid, ⟨some [normalizeEvent f1 uid n1 e, normalizeEvent f2 uid n2 e],
          some [normalizeEvent f1 uid n1 e, normalizeEvent f2 uid n2 e]⟩)]⟩ : DbState) uid limit =
        sortByDesc evKey [normalizeEvent f1 uid n1 e, normalizeEvent f2 uid n2 e] := by
      have htake : (sortByDesc evKey
          [normalizeEvent f1 uid n1 e, normalizeEvent f2 uid n2 e]).take limit =
          sortByDesc evKey [normalizeEvent f1 uid n1 e, normalizeEvent f2 uid n2 e] :=
        List.take_of_length_le (by
          rw [(sortByDesc_perm _ _).length_eq]
          simpa using hlim)
      simp [get_fall_events, lookupUser, htake]
    rw [hget]
    exact hcount _ (sortByDesc_perm _ _)

/-- Witness for C4 as amended, at the counterexample input. -/
theorem C4_amended_witness :
    ((get_fall_events
        (save_fall_event false false true "f2" "u1" 11 sampleEvent
          (save_fall_event false false true "f1" "u1" 10 sampleEvent DbState.durableEmpty).2).2
        "u1" 50).countP (fun x => x.id == some "e1")) = 1 ∧
    ((get_fall_events
        (save_fall_event false false true "f2" "u1" 11 sampleEvent
          (save_fall_event false false true "f1" "u1" 10 sampleEvent DbState.localEmpty).2).2
        "u1" 50).countP (fun x => x.id == some "e1")) = 2 :=
  C4_amended_idempotence "f1" "f2" "u1" "e1" 10 11 sampleEvent rfl 50 (by decide)

/-- The `events` list stored for a user (empty when absent). -/
def userEvents (s : DbState) (uid : String) : List EventData :=
  ((lookupUser s.mem uid).getD UserRecord.empty).events.getD []

/-- The `fall_events` list stored for a user (empty when absent). -/
def userFallEvents (s : DbState) (uid : String) : List EventData :=
  ((lookupUser s.mem uid).getD UserRecord.empty).fall_events.getD []

/-- A sequence of `save_fall_event` calls for one user: each entry
carries the fresh uuid and the clock reading of its call, plus the
payload dict. -/
def save_events_local (fileOk : Bool) (uid : String) (s : DbState) :
    List (String × Int × EventData) → DbState
  | [] => s
  | p :: rest => save_events_local fileOk uid
      ((save_fall_event false false fileOk p.1 uid p.2.1 p.2.2 s).2) rest

lemma save_fall_event_local_lookup (fileOk failCur failLeg : Bool) (f uid : String)
    (now : Int) (e : EventData) (s : DbState) (h : s.is_available = false) :
    lookupUser (save_fall_event failCur failLeg fileOk f uid now e s).2.mem uid =
      some ⟨some (userEvents s uid ++ [normalizeEvent f uid now e]),
            some (userFallEvents s uid ++ [normalizeEvent f uid now e])⟩ ∧
    (save_fall_event failCur failLeg fileOk f uid now e s).2.is_available = false := by
  constructor
  · simp [save_fall_event, h, save_fall_event_local, save_local_data_mem,
      lookupUser_setUser, userEvents, userFallEvents]
  · simp [save_fall_event, h, save_fall_event_local, save_local_data_is_available]

lemma save_events_local_lookup (fileOk : Bool) (uid : String) :
    ∀ (entries : List (String × Int × EventData)) (s : DbState),
      s.is_available = false → entries ≠ [] →
      lookupUser (save_events_local fileOk uid s entries).mem uid =
        some ⟨some (userEvents s uid ++
                entries.map (fun p => normalizeEvent p.1 uid p.2.1 p.2.2)),
              some (userFallEvents s uid ++
                entries.map (fun p => normalizeEvent p.1 uid p.2.1 p.2.2))⟩ ∧
      (save_events_local fileOk uid s entries).is_available = false := by
  intro entries
  induction entries with
  | nil => exact fun s h hne => absurd rfl hne
  | cons p rest ih =>
    intro s h _
    have hstep := save_fall_event_local_lookup fileOk false false p.1 uid p.2.1 p.2.2 s h
    by_cases hr : rest = []
    · subst hr
      exact ⟨by simpa using hstep.1, hstep.2⟩
    · have ih2 := ih ((save_fall_event false false fileOk p.1 uid p.2.1 p.2.2 s).2) hstep.2 hr
      refine ⟨?_, ih2.2⟩
      rw [show save_events_local fileOk uid s (p :: rest) =
        save_events_local fileOk uid
          ((save_fall_event false false fileOk p.1 uid p.2.1 p.2.2 s).2) rest from rfl]
      rw [ih2.1]
      have hue : userEvents ((save_fall_event false false fileOk p.1 uid p.2.1 p.2.2 s).2) uid =
          userEvents s uid ++ [normalizeEvent p.1 uid p.2.1 p.2.2] := by
        simp [userEvents, hstep.1]
      have huf : userFallEvents
          ((save_fall_event false false fileOk p.1 uid p.2.1 p.2.2 s).2) uid =
          userFallEvents s uid ++ [normalizeEvent p.1 uid p.2.1 p.2.2] := by
        simp [userFallEvents, hstep.1]
      rw [hue, huf]
      simp

/-- C6: after any nonempty sequence of local-mode saves for a user
starting from an empty store, `get_fall_events` returns exactly the
stable descending-by-timestamp sort of the saved (normalised) events
cut to `limit`; hence the result has at most `limit` entries, is sorted
newest-first, and — whenever the number of saves fits within the cap —
is a permutation of everything saved: no data loss. -/
theorem C6_get_fall_events_local (fileOk : Bool) (uid : String)
    (entries : List (String × Int × EventData)) (limit : Nat) (hne : entries ≠ []) :
    get_fall_events (save_events_local fileOk uid DbState.localEmpty entries) uid limit =
      (sortByDesc evKey (entries.map (fun p => normalizeEvent p.1 uid p.2.1 p.2.2))).take limit ∧
    (get_fall_events (save_events_local fileOk uid DbState.localEmpty entries)
        uid limit).length ≤ limit ∧
    (get_fall_events (save_events_local fileOk uid DbState.localEmpty entries)
        uid limit).Pairwise (fun a b => evKey b ≤ evKey a) ∧
    (entries.length ≤ limit →
      List.Perm (get_fall_events (save_events_local fileOk uid DbState.localEmpty entries)
          uid limit)
        (entries.map (fun p => normalizeEvent p.1 uid p.2.1 p.2.2))) := by
  have hfold := save_events_local_lookup fileOk uid entries DbState.localEmpty rfl hne
  have hnil : userEvents DbState.localEmpty uid = [] := rfl
  have hnilf : userFallEvents DbState.localEmpty uid = [] := rfl
  rw [hnil, hnilf] at hfold
  have hmapne : entries.map (fun p => normalizeEvent p.1 uid p.2.1 p.2.2) ≠ [] := by
    cases entries with
    | nil => exact absurd rfl hne
    | cons a l => simp
  have hmain : get_fall_events (save_events_local fileOk uid DbState.localEmpty entries)
      uid limit =
      (sortByDesc evKey (entries.map (fun p => normalizeEvent p.1 uid p.2.1 p.2.2))).take
        limit := by
    rw [get_fall_events, if_neg (by rw [hfold.2]; exact fun hc => Bool.noConfusion hc)]
    rw [show lookupUser (save_events_local fileOk uid DbState.localEmpty entries).mem uid =
      some ⟨some (entries.map (fun p => normalizeEvent p.1 uid p.2.1 p.2.2)),
            some (entries.map (fun p => normalizeEvent p.1 uid p.2.1 p.2.2))⟩ from by
        simpa using hfold.1]
    simp [List.isEmpty_iff, hmapne]
  refine ⟨hmain, ?_, ?_, ?_⟩
  · rw [hmain]
    exact List.length_take_le limit _
  · rw [hmain]
    exact (sortByDesc_pairwise evKey _).sublist (List.take_sublist _ _)
  · intro hcap
    rw [hmain]
    rw [List.take_of_length_le (by
      rw [(sortByDesc_perm _ _).length_eq, List.length_map]
      exact hcap)]
    exact sortByDesc_perm _ _

/-- Witness for C6: one save of the sample event round-trips through
`get_fall_events` as the singleton sorted list. -/
theorem C6_witness :
    get_fall_events (save_events_local true "u1" DbState.localEmpty
        [("f1", 10, sampleEvent)]) "u1" 50 =
      (sortByDesc evKey [normalizeEvent "f1" "u1" 10 sampleEvent]).take 50 ∧
    List.Perm (get_fall_events (save_events_local true "u1" DbState.localEmpty
        [("f1", 10, sampleEvent)]) "u1" 50)
      [normalizeEvent "f1" "u1" 10 sampleEvent] :=
  ⟨(C6_get_fall_events_local true "u1" [("f1", 10, sampleEvent)] 50 (by decide)).1,
   (C6_get_fall_events_local true "u1" [("f1", 10, sampleEvent)] 50 (by decide)).2.2.2
     (by decide)⟩

/-! Helper lemmas about the detector cooldown and the coordinator. -/

lemma process_results_suppressed (s : DetectorState) (t : Int) (boxes : List Detection)
    (ht : t - s.last_detection_time < fallDetectionCooldown) :
    (process_results s t boxes).fall_detected = false := by
  simp only [process_results]
  rw [decide_eq_true ht]
  cases boxes.any (fun b => is_fall_class b.class_name b.class_id) <;> simp

lemma detect_fall_ok_eq (s : DetectorState) (t : Int) (boxes : List Detection) :
    detect_fall s true (.ok boxes) t =
      (if (process_results s t boxes).fall_detected
        then (process_results s t boxes,
          ⟨t, s.detection_count + 1⟩)
        else (process_results s t boxes, s)) := by
  simp [detect_fall]

lemma tick_in_window (uid : String) (s : DetectorState) (t : Int)
    (inf : Except String (List Detection))
    (ht : t - s.last_detection_time < fallDetectionCooldown) :
    coordinatorTick uid s t inf = (s, none) := by
  match inf with
  | .error m => simp [coordinatorTick, detect_fall, create_empty_result]
  | .ok boxes =>
    have hfd := process_results_suppressed s t boxes ht
    simp [coordinatorTick, detect_fall_ok_eq, hfd]

lemma tick_confirm (uid : String) (s : DetectorState) (t : Int)
    (h : ¬ (t - s.last_detection_time < fallDetectionCooldown)) :
    coordinatorTick uid s t (.ok [fallBox]) =
      (⟨t, s.detection_count + 1⟩,
        some (mkFallEvent uid t (process_results s t [fallBox]))) := by
  have hfd : (process_results s t [fallBox]).fall_detected = true := by
    simp only [process_results]
    rw [decide_eq_false h]
    simp [fallBox, is_fall_class]
  simp [coordinatorTick, detect_fall_ok_eq, hfd]

lemma runTicks_all_in_window (uid : String) (t0 : Int) :
    ∀ (ticks : List (Int × Except String (List Detection))) (s : DetectorState),
      s.last_detection_time = t0 →
      (∀ t ∈ ticks.map Prod.fst, t - t0 < fallDetectionCooldown) →
      runTicks uid s ticks = (s, []) := by
  intro ticks
  induction ticks with
  | nil => intro s _ _; rfl
  | cons head rest ih =>
    obtain ⟨t, inf⟩ := head
    intro s hs hwin
    have hstep : coordinatorTick uid s t inf = (s, none) :=
      tick_in_window uid s t inf (by rw [hs]; exact hwin t (by simp))
    simp only [runTicks, hstep]
    rw [ih s hs (fun t' h => hwin t' (by simp [h]))]
    rfl

lemma coordinatorTick_some (uid : String) (s : DetectorState) (now : Int)
    (inf : Except String (List Detection)) (e0 : EventData)
    (h : (coordinatorTick uid s now inf).2 = some e0) :
    e0 = mkFallEvent uid now (detect_fall s true inf now).1 := by
  by_cases hf : (detect_fall s true inf now).1.fall_detected
  · simp [coordinatorTick, hf] at h
    exact h.symm
  · simp [coordinatorTick, hf] at h

lemma runTicks_event_shape (uid : String) :
    ∀ (ticks : List (Int × Except String (List Detection))) (s : DetectorState)
      (e : EventData), e ∈ (runTicks uid s ticks).2 →
      ∃ t, t ∈ ticks.map Prod.fst ∧ e.timestamp = some t ∧
        e.id = some (toString (t * 1000)) := by
  intro ticks
  induction ticks with
  | nil => intro s e he; simp [runTicks] at he
  | cons head rest ih =>
    obtain ⟨t, inf⟩ := head
    intro s e he
    simp only [runTicks, List.mem_append] at he
    rcases he with h1 | h2
    · cases htick : (coordinatorTick uid s t inf).2 with
      | none =>
        rw [htick] at h1
        simp at h1
      | some e0 =>
        rw [htick] at h1
        simp at h1
        have he0 := coordinatorTick_some uid s t inf e0 htick
        refine ⟨t, by simp, ?_, ?_⟩
        · rw [h1, he0]
          rfl
        · rw [h1, he0]
          rfl
    · obtain ⟨t', ht', hts, hid⟩ := ih _ e h2
      exact ⟨t', by simp [ht'], hts, hid⟩

lemma runTicks_ids_pairwise (uid : String) :
    ∀ (ticks : List (Int × Except String (List Detection))) (s : DetectorState),
      (∀ t ∈ ticks.map Prod.fst, 0 ≤ t) →
      (ticks.map Prod.fst).Pairwise (· < ·) →
      ((runTicks uid s ticks).2).Pairwise (fun a b => a.id ≠ b.id) := by
  intro ticks
  induction ticks with
  | nil => intro s _ _; simp [runTicks]
  | cons head rest ih =>
    obtain ⟨t, inf⟩ := head
    intro s hpos hmono
    have hmono2 : (t :: rest.map Prod.fst).Pairwise (fun a b => a < b) := by
      simpa using hmono
    have hmono' := List.pairwise_cons.1 hmono2
    simp only [runTicks]
    rw [List.pairwise_append]
    refine ⟨?_, ih _ (fun t' h => hpos t' (by simp [h])) hmono'.2, ?_⟩
    · cases (coordinatorTick uid s t inf).2 <;> simp
    · intro a ha b hb
      have hts : a.id = some (toString (t * 1000)) := by
        cases htick : (coordinatorTick uid s t inf).2 with
        | none =>
          rw [htick] at ha
          simp at ha
        | some e0 =>
          rw [htick] at ha
          simp at ha
          have he0 := coordinatorTick_some uid s t inf e0 htick
          rw [ha, he0]
          rfl
      obtain ⟨t', ht', _, hid⟩ := runTicks_event_shape uid rest _ b hb
      rw [hts, hid]
      intro hcontra
      have heq : toString (t * 1000) = toString (t' * 1000) := by
        simpa using hcontra
      have h0t : (0 : Int) ≤ t := hpos t (by simp)
      have h0t' : (0 : Int) ≤ t' := hpos t' (by simp [ht'])
      have := intToString_inj_nonneg (by omega) (by omega) heq
      have hlt := hmono'.1 t' ht'
      omega

/-- C5: every `FallEvent` the coordinator creates carries its id at
creation, the id survives the normalisation step at the entry of
`save_fall_event` (it is never reassigned), and — under a strictly
increasing, nonnegative clock, which `time.time()` provides and the
5-second detection cooldown enforces between confirmed falls — no two
events of a run ever carry the same id, since the id is the decimal
rendering of the creation time in milliseconds. -/
theorem C5_event_ids_unique (uid : String) (s : DetectorState)
    (ticks : List (Int × Except String (List Detection)))
    (hpos : ∀ t ∈ ticks.map Prod.fst, 0 ≤ t)
    (hmono : (ticks.map Prod.fst).Pairwise (· < ·)) :
    (∀ e ∈ (runTicks uid s ticks).2, e.id.isSome ∧
      ∀ (f u : String) (n : Int), (normalizeEvent f u n e).id = e.id) ∧
    ((runTicks uid s ticks).2).Pairwise (fun a b => a.id ≠ b.id) := by
  constructor
  · intro e he
    obtain ⟨t, _, _, hid⟩ := runTicks_event_shape uid ticks s e he
    have hsome : e.id.isSome := by rw [hid]; rfl
    exact ⟨hsome, fun f u n => normalizeEvent_id_of_isSome f u n e hsome⟩
  · exact runTicks_ids_pairwise uid ticks s hpos hmono

/-- Witness for C5: two confirmed falls at t = 100 and t = 106 produce
events with the distinct ids `100000` and `106000`. -/
theorem C5_witness :
    (∀ e ∈ (runTicks "u1" ⟨0, 0⟩ [(100, .ok [fallBox]), (106, .ok [fallBox])]).2,
      e.id.isSome ∧
      ∀ (f u : String) (n : Int), (normalizeEvent f u n e).id = e.id) ∧
    ((runTicks "u1" ⟨0, 0⟩ [(100, .ok [fallBox]), (106, .ok [fallBox])]).2).Pairwise
      (fun a b => a.id ≠ b.id) :=
  C5_event_ids_unique "u1" ⟨0, 0⟩ [(100, .ok [fallBox]), (106, .ok [fallBox])]
    (by decide) (by decide)

/-- C1: the detection cooldown. Part one: with the last confirmed fall
at `t0`, a raw fall at `t` with `t - t0 < 5` is suppressed: the result
reports `fall_detected = false`, the detector state (hence
`last_detection_time`) is unchanged, and the coordinator creates no
event. Part two: `last_detection_time` is written only by a
non-suppressed fall, which sets it to the tick time. Part three: over
any sequence of ticks all within the window of the prior confirmed
fall, zero further events are created — at most one event per window.
Part four, the concrete scenario: relative times 0, 3, 6 with the prior
`last_detection_time` at least one full window in the past (as the real
epoch clock guarantees for a fresh detector, whose
`last_detection_time` starts at 0): raw falls at 0 and 3 create exactly
one event, stamped 0, with `last_detection_time = 0`; the third raw
fall at 6 creates a second event. -/
theorem C1_cooldown_dedup :
    (∀ (uid : String) (s : DetectorState) (t0 t : Int) (boxes : List Detection),
      s.last_detection_time = t0 → t - t0 < fallDetectionCooldown →
      (process_results s t boxes).fall_detected = false ∧
      (detect_fall s true (.ok boxes) t).2 = s ∧
      coordinatorTick uid s t (.ok boxes) = (s, none)) ∧
    (∀ (s : DetectorState) (t : Int) (inf : Except String (List Detection)),
      ((detect_fall s true inf t).1.fall_detected = false →
        (detect_fall s true inf t).2 = s) ∧
      ((detect_fall s true inf t).1.fall_detected = true →
        (detect_fall s true inf t).2.last_detection_time = t)) ∧
    (∀ (uid : String) (s : DetectorState) (t0 : Int)
       (ticks : List (Int × Except String (List Detection))),
      s.last_detection_time = t0 →
      (∀ t ∈ ticks.map Prod.fst, t - t0 < fallDetectionCooldown) →
      runTicks uid s ticks = (s, [])) ∧
    (∀ s0 : DetectorState, s0.last_detection_time ≤ -fallDetectionCooldown →
      ((runTicks "u1" s0 [(0, .ok [fallBox]), (3, .ok [fallBox])]).2.map
        (fun e => e.timestamp) = [some 0]) ∧
      (runTicks "u1" s0 [(0, .ok [fallBox]), (3, .ok [fallBox])]).1.last_detection_time = 0 ∧
      ((runTicks "u1" s0 [(0, .ok [fallBox]), (3, .ok [fallBox]), (6, .ok [fallBox])]).2.map
        (fun e => e.timestamp) = [some 0, some 6])) := by
  refine ⟨?_, ?_, ?_, ?_⟩
  · intro uid s t0 t boxes hs ht
    have hfd := process_results_suppressed s t boxes (by rw [hs]; exact ht)
    exact ⟨hfd, by simp [detect_fall_ok_eq, hfd],
      tick_in_window uid s t (.ok boxes) (by rw [hs]; exact ht)⟩
  · intro s t inf
    match inf with
    | .error m =>
      constructor
      · intro _
        simp [detect_fall]
      · intro hcontra
        simp [detect_fall, create_empty_result] at hcontra
    | .ok boxes =>
      by_cases hf : (process_results s t boxes).fall_detected
      · constructor
        · intro h0
          rw [detect_fall_ok_eq, if_pos hf] at h0
          simp [hf] at h0
        · intro _
          rw [detect_fall_ok_eq, if_pos hf]
      · constructor
        · intro _
          rw [detect_fall_ok_eq, if_neg hf]
        · intro h1
          rw [detect_fall_ok_eq, if_neg hf] at h1
          exact absurd h1 hf
  · intro uid s t0 ticks hs hwin
    exact runTicks_all_in_window uid t0 ticks s hs hwin
  · intro s0 h
    have hc1 : ¬ (0 - s0.last_detection_time < fallDetectionCooldown) := by
      simp only [fallDetectionCooldown] at h ⊢
      omega
    have e1 := tick_confirm "u1" s0 0 hc1
    have e2 := tick_in_window "u1" (⟨0, s0.detection_count + 1⟩ : DetectorState) 3
      (.ok [fallBox])
      (by norm_num [fallDetectionCooldown] : (3 : Int) - 0 < fallDetectionCooldown)
    have e3 := tick_confirm "u1" (⟨0, s0.detection_count + 1⟩ : DetectorState) 6
      (by norm_num [fallDetectionCooldown] : ¬ ((6 : Int) - 0 < fallDetectionCooldown))
    refine ⟨?_, ?_, ?_⟩
    · simp only [runTicks, e1, e2]
      simp [mkFallEvent]
    · simp only [runTicks, e1, e2]
    · simp only [runTicks, e1, e2, e3]
      simp [mkFallEvent]

/-- Witness for C1: from a fresh detector, a raw fall 3 units after a
confirmed fall is suppressed without touching state; a confirmed fall
at 100 stamps the state; ticks inside the window create nothing; with
the prior fall a full window in the past, the 0/3/6 scenario creates
events stamped 0 and 6 only. -/
theorem C1_witness :
    (process_results ⟨0, 0⟩ 3 [fallBox]).fall_detected = false ∧
    coordinatorTick "u1" ⟨0, 0⟩ 3 (.ok [fallBox]) = (⟨0, 0⟩, none) ∧
    (detect_fall ⟨0, 0⟩ true (.ok [fallBox]) 100).2.last_detection_time = 100 ∧
    runTicks "u1" ⟨0, 0⟩ [(1, .ok [fallBox])] = (⟨0, 0⟩, []) ∧
    ((runTicks "u1" ⟨-5, 0⟩ [(0, .ok [fallBox]), (3, .ok [fallBox])]).2.map
      (fun e => e.timestamp) = [some 0]) ∧
    ((runTicks "u1" ⟨-5, 0⟩ [(0, .ok [fallBox]), (3, .ok [fallBox]), (6, .ok [fallBox])]).2.map
      (fun e => e.timestamp) = [some 0, some 6]) :=
  ⟨(C1_cooldown_dedup.1 "u1" ⟨0, 0⟩ 0 3 [fallBox] rfl (by decide)).1,
   (C1_cooldown_dedup.1 "u1" ⟨0, 0⟩ 0 3 [fallBox] rfl (by decide)).2.2,
   (C1_cooldown_dedup.2.1 ⟨0, 0⟩ 100 (.ok [fallBox])).2 (by decide),
   C1_cooldown_dedup.2.2.1 "u1" ⟨0, 0⟩ 0 [(1, .ok [fallBox])] rfl (by decide),
   (C1_cooldown_dedup.2.2.2 ⟨-5, 0⟩ (by decide)).1,
   (C1_cooldown_dedup.2.2.2 ⟨-5, 0⟩ (by decide)).2.2⟩

end Guard
